import Mathlib

/-!
Verification of the my-pathways/monitor uptime monitor.

The repository holds three revisions of the same script: the current
src/monitor.mjs, an earlier revision (src/unnamed/part_001, whose change
detector is detectChanges) and another revision (src/unnamed/part_002,
whose change detector is getChangedServices).  Functions that are
byte-identical across the revisions (checkOnce, checkWithRetries, fmt,
loadPreviousState) are defined once at top level; revision-specific
functions live in the namespaces MonitorMjs, Part1 and Part2.

Effectful platform primitives (fetch, the filesystem, JSON.stringify and
JSON.parse, timers) are shallowly embedded: probe results and delivery
results are passed in as explicit values, the filesystem is an explicit
state record, and the JSON (de)serialization used by the state store is
modelled by executable functions mirroring JSON.stringify(state, null, 2)
and JSON.parse restricted to the persisted-state schema (an object whose
values are booleans).
-/

/-- RETRIES constant from the source (same in all revisions). -/
def RETRIES : Nat := 2

/-- COOLDOWN_MS constant from the source. -/
def COOLDOWN_MS : Nat := 1000

/-- SLOW_THRESHOLD_MS constant from the source. -/
def SLOW_THRESHOLD_MS : Nat := 2500

/-- A monitored target, as in the TARGETS configuration entries:
name, url, expectStatus, expectText, timeoutMs.  expectStatus and
expectText are optional (null in the source is none here). -/
structure Target where
  name : String
  url : String
  expectStatus : Option Nat
  expectText : Option String
  timeoutMs : Nat
deriving Repr, DecidableEq

/-- The part of a fetch Response that checkOnce inspects: the numeric
status and the body text. -/
structure Response where
  status : Nat
  body : String
deriving Repr, DecidableEq

/-- res.ok from the fetch API: status in the inclusive range 200..299. -/
def Response.ok (r : Response) : Bool :=
  200 ≤ r.status && r.status ≤ 299

/-- The result object built by checkOnce: name, url, up, status, ms
(null on failure, hence Option), slow, error (null on success). -/
structure Outcome where
  name : String
  url : String
  up : Bool
  status : Nat
  ms : Option Nat
  slow : Bool
  error : Option String
deriving Repr, DecidableEq

/-- p is a prefix of l (helper for the JS String.prototype.includes model). -/
def hasPrefixChars (l p : List Char) : Bool :=
  match p, l with
  | [], _ => true
  | _ :: _, [] => false
  | a :: ps, b :: ls => a == b && hasPrefixChars ls ps

/-- sub occurs contiguously inside l (helper for String.prototype.includes). -/
def hasSubChars (l sub : List Char) : Bool :=
  hasPrefixChars l sub ||
    match l with
    | [] => false
    | _ :: rest => hasSubChars rest sub

/-- JS text.includes(sub). -/
def strIncludes (text sub : String) : Bool :=
  hasSubChars text.data sub.data

/-- text.toLowerCase().includes(needle.toLowerCase()) from checkOnce. -/
def containsCI (text needle : String) : Bool :=
  strIncludes text.toLower needle.toLower

/-- checkOnce from the source (identical in all three revisions).  The
fetch call is embedded as an explicit argument: Except.error e is a
transport error, timeout or abort whose caught message is e, and
Except.ok res is a completed response.  elapsed stands for the measured
Math.round(performance.now() - started).  The second component of the
result records whether the response body was read (res.text() called),
which the source does only inside the `if (target.expectText)` branch.
The JS truthiness tests are modelled exactly: expectStatus of null or 0
is falsy, expectText of null or the empty string is falsy. -/
def checkOnce (target : Target) (fetchResult : Except String Response)
    (elapsed : Nat) : Outcome × Bool :=
  match fetchResult with
  | Except.ok res =>
    let okStatus :=
      match target.expectStatus with
      | some s => if s ≠ 0 then res.status == s else res.ok
      | none => res.ok
    let okTextRead : Bool × Bool :=
      match target.expectText with
      | some t => if t ≠ "" then (containsCI res.body t, true) else (true, false)
      | none => (true, false)
    ({ name := target.name, url := target.url, up := okStatus && okTextRead.1,
       status := res.status, ms := some elapsed,
       slow := SLOW_THRESHOLD_MS < elapsed, error := none }, okTextRead.2)
  | Except.error e =>
    ({ name := target.name, url := target.url, up := false, status := 0,
       ms := none, slow := false, error := some e }, false)

/-- Loop body of checkWithRetries.  The source iterates i = 0..RETRIES,
probing once per iteration, returning at the first up result, and
sleeping COOLDOWN_MS after every failed non-final attempt.  Here probe i
is the outcome the (i+1)-th checkOnce call would produce, and `left`
counts the retries still allowed (RETRIES - i), so the recursion is
structural.  Besides the returned outcome the embedding also returns the
number of attempts performed and the total milliseconds slept, which at
every return point equal i+1 and COOLDOWN_MS * i (one sleep after each
of the i failed earlier attempts, none after the final one). -/
def checkWithRetriesGo (probe : Nat → Outcome) : Nat → Nat → Outcome × Nat × Nat
  | i, 0 => (probe i, i + 1, COOLDOWN_MS * i)
  | i, left + 1 =>
    let last := probe i
    if last.up then (last, i + 1, COOLDOWN_MS * i)
    else checkWithRetriesGo probe (i + 1) left

/-- checkWithRetries from the source (identical in all three revisions). -/
def checkWithRetries (probe : Nat → Outcome) : Outcome × Nat × Nat :=
  checkWithRetriesGo probe 0 RETRIES

/-- JSON whitespace (space, tab, newline, carriage return). -/
def isWs (c : Char) : Bool :=
  c == ' ' || c == '\n' || c == '\t' || c == '\r'

/-- Skip leading JSON whitespace. -/
def skipWs : List Char → List Char
  | [] => []
  | c :: rest => if isWs c then skipWs rest else c :: rest

/-- Lowercase hex digit for n < 16, as produced by JSON.stringify escapes. -/
def hexDigitChar (n : Nat) : Char :=
  if n < 10 then Char.ofNat ('0'.toNat + n) else Char.ofNat ('a'.toNat + n - 10)

/-- Numeric value of a hex digit, as accepted by JSON.parse in a \u escape. -/
def hexVal (c : Char) : Option Nat :=
  if '0' ≤ c ∧ c ≤ '9' then some (c.toNat - '0'.toNat)
  else if 'a' ≤ c ∧ c ≤ 'f' then some (c.toNat - 'a'.toNat + 10)
  else if 'A' ≤ c ∧ c ≤ 'F' then some (c.toNat - 'A'.toNat + 10)
  else none

/-- The single-character escapes of JSON: the character following a
backslash and the character it denotes. -/
def escCode (e : Char) : Option Char :=
  if e = '"' then some '"'
  else if e = '\\' then some '\\'
  else if e = '/' then some '/'
  else if e = 'b' then some '\x08'
  else if e = 'f' then some '\x0c'
  else if e = 'n' then some '\n'
  else if e = 'r' then some '\r'
  else if e = 't' then some '\t'
  else none

/-- How JSON.stringify renders one character inside a string literal:
quote and backslash get two-character escapes, the named control
characters get their short escapes, the remaining control characters get
a \u00xy escape with lowercase hex, and everything else is copied. -/
def escChar (c : Char) : List Char :=
  if c = '"' then ['\\', '"']
  else if c = '\\' then ['\\', '\\']
  else if c = '\x08' then ['\\', 'b']
  else if c = '\x0c' then ['\\', 'f']
  else if c = '\n' then ['\\', 'n']
  else if c = '\r' then ['\\', 'r']
  else if c = '\t' then ['\\', 't']
  else if c.toNat < 32 then
    ['\\', 'u', '0', '0', hexDigitChar (c.toNat / 16), hexDigitChar (c.toNat % 16)]
  else [c]

/-- JSON.stringify rendering of a whole string body (without the
surrounding quotes). -/
def escChars : List Char → List Char
  | [] => []
  | c :: rest => escChar c ++ escChars rest

/-- Fuel-indexed JSON string-body scanner: consumes characters up to and
including the closing quote, undoing escapes, and returns the decoded
characters together with the input following the closing quote.  Fails
(like JSON.parse raising) on a bad escape, an unterminated string, or a
\u escape that does not denote a unicode scalar value. -/
def unescStringF : Nat → List Char → Option (List Char × List Char)
  | 0, _ => none
  | _ + 1, [] => none
  | fuel + 1, c :: rest =>
    if c = '"' then some ([], rest)
    else if c = '\\' then
      match rest with
      | [] => none
      | e :: rest2 =>
        if e = 'u' then
          match rest2 with
          | h1 :: h2 :: h3 :: h4 :: rest3 =>
            match hexVal h1, hexVal h2, hexVal h3, hexVal h4 with
            | some a, some b, some c2, some d =>
              let n := ((a * 16 + b) * 16 + c2) * 16 + d
              if _h : n.isValidChar then
                Option.map (fun p => (Char.ofNat n :: p.1, p.2)) (unescStringF fuel rest3)
              else none
            | _, _, _, _ => none
          | _ => none
        else
          match escCode e with
          | some ch => Option.map (fun p => (ch :: p.1, p.2)) (unescStringF fuel rest2)
          | none => none
    else Option.map (fun p => (c :: p.1, p.2)) (unescStringF fuel rest)

/-- JSON string-body scanner with enough fuel for its input. -/
def unescString (l : List Char) : Option (List Char × List Char) :=
  unescStringF (l.length + 1) l

/-- The JSON literals true and false. -/
def parseBoolLit : List Char → Option (Bool × List Char)
  | 't' :: 'r' :: 'u' :: 'e' :: rest => some (true, rest)
  | 'f' :: 'a' :: 'l' :: 's' :: 'e' :: rest => some (false, rest)
  | _ => none

/-- Fuel-indexed parser for the members of a non-empty JSON object whose
values are booleans, starting just after the opening brace and consuming
the closing brace.  Returns the key/value pairs in textual order and the
remaining input. -/
def parseEntriesF : Nat → List Char → Option (List (String × Bool) × List Char)
  | 0, _ => none
  | fuel + 1, l =>
    match skipWs l with
    | [] => none
    | c :: r =>
      if c = '"' then
        match unescString r with
        | some (kcs, r2) =>
          match skipWs r2 with
          | [] => none
          | c2 :: r3 =>
            if c2 = ':' then
              match parseBoolLit (skipWs r3) with
              | some (v, r4) =>
                match skipWs r4 with
                | [] => none
                | c3 :: r5 =>
                  if c3 = ',' then
                    Option.map (fun p => ((String.mk kcs, v) :: p.1, p.2)) (parseEntriesF fuel r5)
                  else if c3 = '}' then some ([(String.mk kcs, v)], r5)
                  else none
              | none => none
            else none
        | none => none
      else none

/-- Model of the JSON.parse call in loadPreviousState, restricted to the
persisted-state schema: an object mapping strings to booleans.  Returns
none where JSON.parse would raise on such input; any other JSON document
shape is also rejected (the monitor only ever looks boolean values up by
URL, so a non-conforming document behaves like no prior knowledge). -/
def parseState (s : String) : Option (List (String × Bool)) :=
  match skipWs s.data with
  | [] => none
  | c :: r =>
    if c = '{' then
      match skipWs r with
      | [] => none
      | c2 :: r2 =>
        if c2 = '}' then (if skipWs r2 = [] then some [] else none)
        else
          match parseEntriesF (s.data.length + 1) r with
          | some (m, rest) => if skipWs rest = [] then some m else none
          | none => none
    else none

/-- JSON.stringify rendering of one member under the two-space indent
used by JSON.stringify(state, null, 2). -/
def stringifyEntry (k : String) (v : Bool) : List Char :=
  ' ' :: ' ' :: '"' :: (escChars k.data ++ '"' :: ':' :: ' ' ::
    (if v then ['t', 'r', 'u', 'e'] else ['f', 'a', 'l', 's', 'e']))

/-- The members of the object, separated by a comma and a newline. -/
def entriesChars : List (String × Bool) → List Char
  | [] => []
  | [(k, v)] => stringifyEntry k v
  | (k, v) :: rest => stringifyEntry k v ++ ',' :: '\n' :: entriesChars rest

/-- Model of JSON.stringify(state, null, 2) on the persisted-state
mapping: the empty object prints without a newline, a non-empty object
prints one indented member per line. -/
def stringifyChars : List (String × Bool) → List Char
  | [] => ['{', '}']
  | m => '{' :: '\n' :: (entriesChars m ++ '\n' :: ['}'])

/-- String form of the serialized state. -/
def stringifyState (m : List (String × Bool)) : String :=
  String.mk (stringifyChars m)

/-- The slice of the filesystem the monitor touches: whether the parent
directory of STATE_FILE exists, an injected disk-level write failure
(e.g. ENOSPC), and the current content of STATE_FILE (none if absent). -/
structure FS where
  parentExists : Bool
  diskFull : Bool
  file : Option String
deriving Repr, DecidableEq

/-- readFileSync on STATE_FILE: the content, or a thrown error if the
file does not exist. -/
def readFile (fs : FS) : Except String String :=
  match fs.file with
  | some data => Except.ok data
  | none => Except.error "ENOENT: no such file or directory"

/-- writeFileSync on STATE_FILE: throws if the parent directory is
missing or on an injected disk failure, otherwise replaces the content. -/
def writeFile (fs : FS) (content : String) : Except String FS :=
  if !fs.parentExists then Except.error "ENOENT: no such file or directory"
  else if fs.diskFull then Except.error "ENOSPC: no space left on device"
  else Except.ok { fs with file := some content }

/-- mkdirSync(dirname(STATE_FILE), recursive true): creates the parent
directory; with the recursive flag it does not throw when it already
exists. -/
def mkdirRecursive (fs : FS) : FS :=
  { fs with parentExists := true }

/-- loadPreviousState (identical in all three revisions): read and
JSON.parse the state file, returning the empty object on any caught
read or parse error.  The total return type is the embedding of the
fact that the function never raises. -/
def loadPreviousState (fs : FS) : List (String × Bool) :=
  match readFile fs with
  | Except.error _ => []
  | Except.ok data =>
    match parseState data with
    | some state => state
    | none => []

namespace MonitorMjs

/-- savePreviousState from src/monitor.mjs (src/unnamed/part_001 has the
same function): one writeFileSync inside try/catch, no directory
creation.  Returns the filesystem afterwards and the console.warn
message, if any; returning normally in the error case embeds the fact
that a write failure does not fail the run. -/
def savePreviousState (fs : FS) (state : List (String × Bool)) : FS × Option String :=
  match writeFile fs (stringifyState state) with
  | Except.ok fs2 => (fs2, none)
  | Except.error e => (fs, some ("Could not save state: " ++ e))

end MonitorMjs

namespace Part2

/-- savePreviousState from src/unnamed/part_002: first mkdirSync of the
parent directory (recursive, its own errors swallowed), then
writeFileSync inside try/catch with a console.warn on failure. -/
def savePreviousState (fs : FS) (state : List (String × Bool)) : FS × Option String :=
  let fs1 := mkdirRecursive fs
  match writeFile fs1 (stringifyState state) with
  | Except.ok fs2 => (fs2, none)
  | Except.error e => (fs1, some ("Could not save state: " ++ e))

end Part2

/-- JS object update currentState[k] = v on the association-list view of
an object: overwrite in place if the key is present, else append. -/
def setKey (m : List (String × Bool)) (k : String) (v : Bool) : List (String × Bool) :=
  match m with
  | [] => [(k, v)]
  | (k2, v2) :: rest => if k2 = k then (k2, v) :: rest else (k2, v2) :: setKey rest k v

/-- The currentState object every main builds before saving:
results.forEach(r => currentState[r.url] = r.up), starting from the
empty object. -/
def buildState (results : List Outcome) : List (String × Bool) :=
  results.foldl (fun acc r => setKey acc r.url r.up) []

/-- Option-valued ?? fallback: result.error ?? "n/a" in fmt. -/
def errStr : Option String → String
  | some e => e
  | none => "n/a"

/-- How a JS template literal prints result.ms (null prints as "null"). -/
def msStr : Option Nat → String
  | some n => toString n
  | none => "null"

/-- fmt from the source (identical in all three revisions). -/
def fmt (result : Outcome) : String :=
  let envName := if result.name ≠ "" then result.name else "Service"
  if !result.up then
    "❌ DOWN: **" ++ envName ++ "** - " ++ result.url ++ " (status=" ++
      toString result.status ++ ", error=" ++ errStr result.error ++ ")"
  else
    "✅ OK: **" ++ envName ++ "** - " ++ result.url ++ " (" ++ msStr result.ms ++
      " ms, status=" ++ toString result.status ++ ")"

/-- JS Array.prototype.join with a separator. -/
def joinSep (sep : String) : List String → String
  | [] => ""
  | [x] => x
  | x :: y :: rest => x ++ sep ++ joinSep sep (y :: rest)

namespace MonitorMjs

/-- hasChanges from src/monitor.mjs: true as soon as some result has no
recorded prior state (first time seen) or a prior state different from
its current up value. -/
def hasChanges (currentResults : List Outcome) (previousState : List (String × Bool)) : Bool :=
  match currentResults with
  | [] => false
  | result :: rest =>
    match List.lookup result.url previousState with
    | none => true
    | some wasUp => if wasUp != result.up then true else hasChanges rest previousState

/-- formatStatusMessage from src/monitor.mjs: the full report listing
services up then services down, with a timestamp and run duration. -/
def formatStatusMessage (results : List Outcome) (timestamp : String)
    (executionTime : Nat) : String :=
  let upServices := results.filter (fun r => r.up)
  let downServices := results.filter (fun r => !r.up)
  let base := "📊 **SERVICE STATUS UPDATES**\n\n"
  let upPart :=
    if upServices.length > 0 then
      "🟢 **Services Up**\n" ++ String.join (upServices.map (fun s =>
        "✅ **" ++ s.name ++ "** - " ++ s.url ++ " (" ++ msStr s.ms ++
          " ms, status=" ++ toString s.status ++ ")\n"))
    else ""
  let downPart :=
    if downServices.length > 0 then
      (if upServices.length > 0 then "\n" else "") ++
        "🔴 **Services Down**\n" ++ String.join (downServices.map (fun s =>
          "❌ **" ++ s.name ++ "** - " ++ s.url ++ " (status=" ++ toString s.status ++
            ", error=" ++ errStr s.error ++ ")\n"))
    else ""
  base ++ upPart ++ downPart ++ "\n⏰ **" ++ timestamp ++ " ART** | 🕐 Execution time: " ++
    toString executionTime ++ "ms"

/-- The observable effects of one run of main in src/monitor.mjs:
whether notify was invoked with a message, the message, the object
passed to savePreviousState, and the filesystem afterwards.  The probe
phase is embedded by passing the already-resolved results in; timestamp
and executionTime stand for the clock readings. -/
structure MainResult where
  notifyCalled : Bool
  message : Option String
  savedState : List (String × Bool)
  fsAfter : FS
deriving Repr

/-- main from src/monitor.mjs, from the point where the probe results
are in hand: load prior state, compute hasChanges, build and save
currentState unconditionally, then notify with the full status report
when hasChanges or the FORCE_STATUS_REPORT flag says so. -/
def mainRun (results : List Outcome) (fs : FS) (forceReport : Bool)
    (timestamp : String) (executionTime : Nat) : MainResult :=
  let previousState := loadPreviousState fs
  let shouldNotify := hasChanges results previousState
  let currentState := buildState results
  let saveRes := savePreviousState fs currentState
  if shouldNotify || forceReport then
    { notifyCalled := true,
      message := some (formatStatusMessage results timestamp executionTime),
      savedState := currentState, fsAfter := saveRes.1 }
  else
    { notifyCalled := false, message := none,
      savedState := currentState, fsAfter := saveRes.1 }

end MonitorMjs

namespace Part1

/-- The transition kinds pushed by detectChanges in src/unnamed/part_001. -/
inductive ChangeType
  | initial_down
  | went_down
  | recovered
deriving Repr, DecidableEq

/-- One pushed change object: its type tag and the result it concerns. -/
structure Change where
  type : ChangeType
  result : Outcome
deriving Repr, DecidableEq

/-- detectChanges from src/unnamed/part_001, with the push loop written
as structural recursion (each iteration appends its pushes in order).
A result with no recorded prior state yields an initial_down change
exactly when it is down; a result with a recorded prior state yields a
recovered or went_down change exactly when the recorded value differs
from the current one. -/
def detectChanges (currentResults : List Outcome)
    (previousState : List (String × Bool)) : List Change :=
  match currentResults with
  | [] => []
  | result :: rest =>
    match List.lookup result.url previousState with
    | none =>
      if !result.up then
        { type := ChangeType.initial_down, result := result } :: detectChanges rest previousState
      else detectChanges rest previousState
    | some wasUp =>
      if wasUp != result.up then
        (if result.up then { type := ChangeType.recovered, result := result }
         else { type := ChangeType.went_down, result := result }) :: detectChanges rest previousState
      else detectChanges rest previousState

/-- The contribution of a single outcome to detectChanges, used to state
that detectChanges is exactly the in-order concatenation of per-outcome
contributions. -/
def detectOne (previousState : List (String × Bool)) (result : Outcome) : Option Change :=
  match List.lookup result.url previousState with
  | none =>
    if result.up then none else some { type := ChangeType.initial_down, result := result }
  | some wasUp =>
    if wasUp != result.up then
      some (if result.up then { type := ChangeType.recovered, result := result }
            else { type := ChangeType.went_down, result := result })
    else none

/-- The per-change headline built in part_001's main before notifying. -/
def changeMessage (change : Change) : String :=
  match change.type with
  | ChangeType.initial_down => "🚨 **INITIAL CHECK - SERVICE DOWN**\n" ++ fmt change.result
  | ChangeType.went_down => "🔴 **SERVICE WENT DOWN**\n" ++ fmt change.result
  | ChangeType.recovered => "🟢 **SERVICE RECOVERED**\n" ++ fmt change.result

/-- Observable effects of one run of main in src/unnamed/part_001. -/
structure MainResult where
  notifyCalled : Bool
  message : Option String
  savedState : List (String × Bool)
  fsAfter : FS
deriving Repr

/-- main from src/unnamed/part_001, from the point where the probe
results are in hand: notify with the joined change messages when any
change was detected, otherwise with the full status report when the
FORCE_STATUS_REPORT flag is set, otherwise not at all; the state is
saved unconditionally before that decision. -/
def mainRun (results : List Outcome) (fs : FS) (forceReport : Bool) : MainResult :=
  let previousState := loadPreviousState fs
  let changes := detectChanges results previousState
  let currentState := buildState results
  let saveRes := MonitorMjs.savePreviousState fs currentState
  if changes.length > 0 then
    let messages := changes.map changeMessage
    if messages.length > 0 then
      { notifyCalled := true, message := some (joinSep "\n\n" messages),
        savedState := currentState, fsAfter := saveRes.1 }
    else
      { notifyCalled := false, message := none,
        savedState := currentState, fsAfter := saveRes.1 }
  else if forceReport then
    { notifyCalled := true,
      message := some (joinSep "\n" ("📊 **CURRENT STATUS REPORT**" :: "" :: results.map fmt)),
      savedState := currentState, fsAfter := saveRes.1 }
  else
    { notifyCalled := false, message := none,
      savedState := currentState, fsAfter := saveRes.1 }

end Part1

namespace Part2

/-- One changed-service record pushed by getChangedServices in
src/unnamed/part_002: the spread result plus previousState and a
changeType string of "recovered" or "down". -/
structure ChangedService where
  result : Outcome
  previousState : Bool
  changeType : String
deriving Repr, DecidableEq

/-- getChangedServices from src/unnamed/part_002: results seen for the
first time are skipped outright (the inline comment says the point is to
avoid initial alerts); recorded results contribute one record exactly
when the recorded value differs from the current one. -/
def getChangedServices (currentResults : List Outcome)
    (previousState : List (String × Bool)) : List ChangedService :=
  match currentResults with
  | [] => []
  | result :: rest =>
    match List.lookup result.url previousState with
    | none => getChangedServices rest previousState
    | some wasUp =>
      if wasUp != result.up then
        { result := result, previousState := wasUp,
          changeType := if result.up then "recovered" else "down" } ::
          getChangedServices rest previousState
      else getChangedServices rest previousState

/-- The contribution of a single outcome to getChangedServices. -/
def changedOne (previousState : List (String × Bool)) (result : Outcome) :
    Option ChangedService :=
  match List.lookup result.url previousState with
  | none => none
  | some wasUp =>
    if wasUp != result.up then
      some { result := result, previousState := wasUp,
             changeType := if result.up then "recovered" else "down" }
    else none

end Part2

/-- The .catch handler on the webhook fetch in notify: a delivery error
is replaced by normal completion. -/
def catchDiscard (result : Except String Unit) : Except String Unit :=
  match result with
  | Except.ok u => Except.ok u
  | Except.error _ => Except.ok ()

/-- notify from the source (identical in all three revisions): when the
webhook URL is non-empty (JS truthiness) it posts the message, with any
delivery failure swallowed by .catch; when it is empty it does nothing.
The embedding takes the delivery result of the POST as an argument and
returns whether a delivery was attempted together with how the call
completes; the second component never being an error is the embedding of
the fact that notify never raises. -/
def notify (webhookUrl : String) (_message : String)
    (delivery : Except String Unit) : Bool × Except String Unit :=
  if webhookUrl ≠ "" then (true, catchDiscard delivery) else (false, Except.ok ())

/-- A concrete healthy outcome used by concrete instantiations below. -/
def exampleUp : Outcome :=
  { name := "Production", url := "https://example.com", up := true,
    status := 200, ms := some 50, slow := false, error := none }

/-- A concrete failing outcome used by concrete instantiations below. -/
def exampleDown : Outcome :=
  { name := "Development", url := "https://dev.example.com", up := false,
    status := 500, ms := some 120, slow := false, error := none }

/-- A healthy filesystem with no state file yet. -/
def fsEmpty : FS := { parentExists := true, diskFull := false, file := none }

/-- A filesystem whose state-file parent directory is missing. -/
def fsNoDir : FS := { parentExists := false, diskFull := false, file := none }

section RetrierProofs

theorem checkWithRetriesGo_stop (probe : Nat → Outcome) (i : Nat) :
    checkWithRetriesGo probe i 0 = (probe i, i + 1, COOLDOWN_MS * i) := rfl

theorem checkWithRetriesGo_hit (probe : Nat → Outcome) (i left : Nat)
    (h : (probe i).up = true) :
    checkWithRetriesGo probe i (left + 1) = (probe i, i + 1, COOLDOWN_MS * i) := by
  simp [checkWithRetriesGo, h]

theorem checkWithRetriesGo_miss (probe : Nat → Outcome) (i left : Nat)
    (h : (probe i).up = false) :
    checkWithRetriesGo probe i (left + 1) = checkWithRetriesGo probe (i + 1) left := by
  simp [checkWithRetriesGo, h]

/-- C3: checkWithRetries performs at most RETRIES+1 attempts, every
attempt before the one it returns failed, it returns the outcome of its
last attempt (hence the first successful attempt when one exists, and
the last failing attempt when all fail), and it sleeps exactly one
COOLDOWN_MS after each failed non-final attempt and never after the
final one.  The embedding is a total function, which is the shallow form
of always returning an Outcome and never raising. -/
theorem checkWithRetries_retrier_contract (probe : Nat → Outcome) :
    (checkWithRetries probe).2.1 ≤ RETRIES + 1 ∧
    (∀ j, j + 1 < (checkWithRetries probe).2.1 → (probe j).up = false) ∧
    (checkWithRetries probe).1 = probe ((checkWithRetries probe).2.1 - 1) ∧
    (∀ j, j ≤ RETRIES → (probe j).up = true → (∀ i, i < j → (probe i).up = false) →
      (checkWithRetries probe).1 = probe j ∧ (checkWithRetries probe).2.1 = j + 1) ∧
    ((∀ i, i ≤ RETRIES → (probe i).up = false) →
      (checkWithRetries probe).1 = probe RETRIES ∧
        (checkWithRetries probe).2.1 = RETRIES + 1) ∧
    (checkWithRetries probe).2.2 = COOLDOWN_MS * ((checkWithRetries probe).2.1 - 1) := by
  cases h0 : (probe 0).up with
  | true =>
    have e : checkWithRetries probe = (probe 0, 1, 0) := by
      show checkWithRetriesGo probe 0 RETRIES = _
      rw [show RETRIES = 1 + 1 from rfl, checkWithRetriesGo_hit probe 0 1 h0]
      norm_num
    have e1 : (checkWithRetries probe).1 = probe 0 := by rw [e]
    have e2 : (checkWithRetries probe).2.1 = 1 := by rw [e]
    have e3 : (checkWithRetries probe).2.2 = 0 := by rw [e]
    rw [e1, e2, e3]
    refine ⟨by norm_num [RETRIES], ?_, rfl, ?_, ?_, by norm_num [COOLDOWN_MS]⟩
    · intro j hj; omega
    · intro j hj hup hall
      match j, hj with
      | 0, _ => exact ⟨rfl, rfl⟩
      | 1, _ => rw [hall 0 (by omega)] at h0; cases h0
      | 2, _ => rw [hall 0 (by omega)] at h0; cases h0
    · intro hall
      rw [hall 0 (by norm_num [RETRIES])] at h0; cases h0
  | false =>
    cases h1 : (probe 1).up with
    | true =>
      have e : checkWithRetries probe = (probe 1, 2, COOLDOWN_MS) := by
        show checkWithRetriesGo probe 0 RETRIES = _
        rw [show RETRIES = 1 + 1 from rfl, checkWithRetriesGo_miss probe 0 1 h0,
          checkWithRetriesGo_hit probe 1 0 h1]
        norm_num
      have e1 : (checkWithRetries probe).1 = probe 1 := by rw [e]
      have e2 : (checkWithRetries probe).2.1 = 2 := by rw [e]
      have e3 : (checkWithRetries probe).2.2 = COOLDOWN_MS := by rw [e]
      rw [e1, e2, e3]
      refine ⟨by norm_num [RETRIES], ?_, rfl, ?_, ?_, by norm_num [COOLDOWN_MS]⟩
      · intro j hj
        have hj0 : j = 0 := by omega
        rw [hj0]; exact h0
      · intro j hj hup hall
        match j, hj with
        | 0, _ => rw [h0] at hup; cases hup
        | 1, _ => exact ⟨rfl, rfl⟩
        | 2, _ => rw [hall 1 (by omega)] at h1; cases h1
      · intro hall
        rw [hall 1 (by norm_num [RETRIES])] at h1; cases h1
    | false =>
      have e : checkWithRetries probe = (probe 2, 3, COOLDOWN_MS * 2) := by
        show checkWithRetriesGo probe 0 RETRIES = _
        rw [show RETRIES = 1 + 1 from rfl, checkWithRetriesGo_miss probe 0 1 h0,
          checkWithRetriesGo_miss probe 1 0 h1, checkWithRetriesGo_stop]
      have e1 : (checkWithRetries probe).1 = probe 2 := by rw [e]
      have e2 : (checkWithRetries probe).2.1 = 3 := by rw [e]
      have e3 : (checkWithRetries probe).2.2 = COOLDOWN_MS * 2 := by rw [e]
      rw [e1, e2, e3]
      refine ⟨by norm_num [RETRIES], ?_, rfl, ?_, ?_, by norm_num [COOLDOWN_MS]⟩
      · intro j hj
        match j, hj with
        | 0, _ => exact h0
        | 1, _ => exact h1
      · intro j hj hup hall
        match j, hj with
        | 0, _ => rw [h0] at hup; cases hup
        | 1, _ => rw [h1] at hup; cases hup
        | 2, _ => exact ⟨rfl, rfl⟩
      · intro _
        exact ⟨rfl, rfl⟩

/-- Concrete instantiation of the retrier contract: a target that always
fails exhausts the retry budget and returns the last failing outcome. -/
theorem checkWithRetries_retrier_contract_example :
    (checkWithRetries (fun _ => exampleDown)).1 = exampleDown ∧
      (checkWithRetries (fun _ => exampleDown)).2.1 = RETRIES + 1 :=
  (checkWithRetries_retrier_contract (fun _ => exampleDown)).2.2.2.2.1
    (fun _ _ => rfl)

end RetrierProofs

section NotifierProofs

/-- C9: notify attempts no delivery when the webhook URL is empty (unset
in the environment), attempts one when it is set, and in every case
completes normally even when the delivery itself failed, because the
.catch handler discards the failure. -/
theorem notify_best_effort (message : String) (delivery : Except String Unit) :
    (notify "" message delivery).1 = false ∧
    (∀ w : String, w ≠ "" → (notify w message delivery).1 = true) ∧
    (∀ w : String, (notify w message delivery).2 = Except.ok ()) := by
  refine ⟨rfl, ?_, ?_⟩
  · intro w hw
    simp [notify, hw]
  · intro w
    by_cases hw : w = ""
    · simp [notify, hw]
    · cases delivery <;> simp [notify, hw, catchDiscard]

/-- Concrete instantiation: with the webhook set, a failing delivery is
attempted and still completes normally. -/
theorem notify_best_effort_example :
    (notify "https://discord.example/webhook" "msg" (Except.error "http 500")).1 = true ∧
      (notify "https://discord.example/webhook" "msg" (Except.error "http 500")).2 =
        Except.ok () :=
  ⟨(notify_best_effort "msg" (Except.error "http 500")).2.1 _ (by decide),
   (notify_best_effort "msg" (Except.error "http 500")).2.2 _⟩

end NotifierProofs

section DetectorProofs

theorem detectChanges_eq_filterMap (prev : List (String × Bool)) :
    ∀ rs : List Outcome, Part1.detectChanges rs prev = rs.filterMap (Part1.detectOne prev) := by
  intro rs
  induction rs with
  | nil => rfl
  | cons r rest ih =>
    cases hl : List.lookup r.url prev with
    | none =>
      cases hu : r.up <;>
        simp [Part1.detectChanges, Part1.detectOne, hl, hu, List.filterMap_cons, ih]
    | some w =>
      cases hw : w != r.up <;>
        simp [Part1.detectChanges, Part1.detectOne, hl, hw, List.filterMap_cons, ih]

theorem getChangedServices_eq_filterMap (prev : List (String × Bool)) :
    ∀ rs : List Outcome,
      Part2.getChangedServices rs prev = rs.filterMap (Part2.changedOne prev) := by
  intro rs
  induction rs with
  | nil => rfl
  | cons r rest ih =>
    cases hl : List.lookup r.url prev with
    | none =>
      simp [Part2.getChangedServices, Part2.changedOne, hl, List.filterMap_cons, ih]
    | some w =>
      cases hw : w != r.up <;>
        simp [Part2.getChangedServices, Part2.changedOne, hl, hw, List.filterMap_cons, ih]

/-- C1 (amended): for an outcome whose URL is absent from the prior
state, part_001's detectChanges contributes no transition when the
outcome is up and exactly one initial_down transition when it is down,
while part_002's getChangedServices skips the outcome entirely and
contributes no transition either way; both detectors are the in-order
per-outcome concatenation given by filterMap, so these contributions are
exact counts within any outcome list. -/
theorem detector_no_prior_state (prev : List (String × Bool)) (o : Outcome)
    (h : List.lookup o.url prev = none) :
    Part1.detectChanges [o] prev =
      (if o.up then []
       else [{ type := Part1.ChangeType.initial_down, result := o }]) ∧
    Part1.detectOne prev o =
      (if o.up then none
       else some { type := Part1.ChangeType.initial_down, result := o }) ∧
    Part2.getChangedServices [o] prev = [] ∧
    Part2.changedOne prev o = none ∧
    (∀ rs, Part1.detectChanges rs prev = rs.filterMap (Part1.detectOne prev)) ∧
    (∀ rs, Part2.getChangedServices rs prev = rs.filterMap (Part2.changedOne prev)) := by
  refine ⟨?_, ?_, ?_, ?_, detectChanges_eq_filterMap prev, getChangedServices_eq_filterMap prev⟩
  · cases hu : o.up <;> simp [Part1.detectChanges, h, hu]
  · cases hu : o.up <;> simp [Part1.detectOne, h, hu]
  · simp [Part2.getChangedServices, h]
  · simp [Part2.changedOne, h]

/-- Concrete instantiation of the no-prior-state contract: a first-seen
down outcome yields one initial_down change from detectChanges and
nothing from getChangedServices. -/
theorem detector_no_prior_state_example :
    Part1.detectChanges [exampleDown] [] =
      [{ type := Part1.ChangeType.initial_down, result := exampleDown }] ∧
    Part2.getChangedServices [exampleDown] [] = [] := by
  have h := detector_no_prior_state [] exampleDown rfl
  exact ⟨by simpa [exampleDown] using h.1, h.2.2.1⟩

/-- C1 counterexample to the claim as stated: a down outcome never seen
before produces no transition at all from part_002's getChangedServices,
not an initialDown transition. -/
theorem getChangedServices_drops_initial_down :
    Part2.getChangedServices [exampleDown] [] = [] ∧
      exampleDown.up = false ∧ List.lookup exampleDown.url ([] : List (String × Bool)) = none :=
  ⟨rfl, rfl, rfl⟩

/-- C2: for an outcome whose URL is present in the prior state, both
detectors contribute exactly one transition when the recorded value
differs from the current up (went_down when it was up and is down,
recovered when it was down and is up) and none when they agree; the
filterMap equations state that the detectors return exactly these
contributions in input order. -/
theorem detector_prior_state (prev : List (String × Bool)) (o : Outcome) (b : Bool)
    (h : List.lookup o.url prev = some b) :
    (b = true → o.up = false →
      Part1.detectOne prev o = some { type := Part1.ChangeType.went_down, result := o } ∧
      Part2.changedOne prev o =
        some { result := o, previousState := b, changeType := "down" }) ∧
    (b = false → o.up = true →
      Part1.detectOne prev o = some { type := Part1.ChangeType.recovered, result := o } ∧
      Part2.changedOne prev o =
        some { result := o, previousState := b, changeType := "recovered" }) ∧
    (b = o.up → Part1.detectOne prev o = none ∧ Part2.changedOne prev o = none) ∧
    (∀ rs, Part1.detectChanges rs prev = rs.filterMap (Part1.detectOne prev)) ∧
    (∀ rs, Part2.getChangedServices rs prev = rs.filterMap (Part2.changedOne prev)) := by
  refine ⟨?_, ?_, ?_, detectChanges_eq_filterMap prev, getChangedServices_eq_filterMap prev⟩
  · intro hb hu
    rw [hb] at h
    constructor <;> simp [Part1.detectOne, Part2.changedOne, h, hu, hb]
  · intro hb hu
    rw [hb] at h
    constructor <;> simp [Part1.detectOne, Part2.changedOne, h, hu, hb]
  · intro hb
    rw [hb] at h
    constructor <;> simp [Part1.detectOne, Part2.changedOne, h]

/-- Concrete instantiation of the prior-state contract: a service that
was up and is now down yields one went_down change and one "down"
changed-service record. -/
theorem detector_prior_state_example :
    Part1.detectOne [(exampleDown.url, true)] exampleDown =
      some { type := Part1.ChangeType.went_down, result := exampleDown } ∧
    Part2.changedOne [(exampleDown.url, true)] exampleDown =
      some { result := exampleDown, previousState := true, changeType := "down" } :=
  (detector_prior_state [(exampleDown.url, true)] exampleDown true rfl).1 rfl rfl

end DetectorProofs

section HasChangesProofs

theorem hasChanges_eq_any (results : List Outcome) (prev : List (String × Bool)) :
    MonitorMjs.hasChanges results prev =
      results.any fun o =>
        match List.lookup o.url prev with
        | none => true
        | some w => w != o.up := by
  induction results with
  | nil => rfl
  | cons r rest ih =>
    cases hl : List.lookup r.url prev with
    | none => simp [MonitorMjs.hasChanges, hl]
    | some w =>
      cases hw : w != r.up <;> simp [MonitorMjs.hasChanges, hl, hw, ih]

theorem loadPreviousState_of_missing (fs : FS) (h : fs.file = none) :
    loadPreviousState fs = [] := by
  simp [loadPreviousState, readFile, h]

/-- C10: hasChanges in src/monitor.mjs is true exactly when some outcome
has no recorded prior state or a recorded prior state opposite to its
current up value; in particular, on a nonempty run with no prior state
and every outcome up it is true, so main attempts a notification. -/
theorem hasChanges_characterization :
    (∀ (results : List Outcome) (prev : List (String × Bool)),
      MonitorMjs.hasChanges results prev = true ↔
        ∃ o, o ∈ results ∧ (List.lookup o.url prev = none ∨
          List.lookup o.url prev = some (!o.up))) ∧
    (∀ (results : List Outcome) (fs : FS) (ts : String) (et : Nat),
      results ≠ [] → fs.file = none → (∀ o, o ∈ results → o.up = true) →
        MonitorMjs.hasChanges results (loadPreviousState fs) = true ∧
        (MonitorMjs.mainRun results fs false ts et).notifyCalled = true) := by
  constructor
  · intro results prev
    rw [hasChanges_eq_any, List.any_eq_true]
    constructor
    · rintro ⟨o, ho, hp⟩
      refine ⟨o, ho, ?_⟩
      cases hl : List.lookup o.url prev with
      | none => exact Or.inl rfl
      | some w =>
        rw [hl] at hp
        simp only [bne_iff_ne, ne_eq] at hp
        exact Or.inr (congrArg some (Bool.eq_not_of_ne hp))
    · rintro ⟨o, ho, hp⟩
      refine ⟨o, ho, ?_⟩
      rcases hp with hl | hl <;> simp [hl]
  · intro results fs ts et hne hfile _hup
    have hprev : loadPreviousState fs = [] := loadPreviousState_of_missing fs hfile
    obtain ⟨r, rest, rfl⟩ : ∃ r rest, results = r :: rest := by
      cases results with
      | nil => exact absurd rfl hne
      | cons r rest => exact ⟨r, rest, rfl⟩
    have hchanged : MonitorMjs.hasChanges (r :: rest) (loadPreviousState fs) = true := by
      rw [hprev]
      simp [MonitorMjs.hasChanges]
    refine ⟨hchanged, ?_⟩
    simp [MonitorMjs.mainRun, hchanged]

/-- Concrete instantiation: a single healthy first-seen outcome makes
hasChanges true and main notifies. -/
theorem hasChanges_characterization_example :
    MonitorMjs.hasChanges [exampleUp] (loadPreviousState fsEmpty) = true ∧
      (MonitorMjs.mainRun [exampleUp] fsEmpty false "t" 1).notifyCalled = true :=
  hasChanges_characterization.2 [exampleUp] fsEmpty "t" 1 (by simp) rfl
    (by intro o ho; simp at ho; rw [ho]; rfl)

end HasChangesProofs

section BuildStateProofs

theorem lookup_setKey_self (m : List (String × Bool)) (k : String) (v : Bool) :
    List.lookup k (setKey m k v) = some v := by
  induction m with
  | nil => simp [setKey]
  | cons p rest ih =>
    obtain ⟨k2, v2⟩ := p
    by_cases h : k2 = k
    · rw [h]; simp [setKey]
    · simp [setKey, h, List.lookup_cons, beq_false_of_ne (Ne.symm h), ih]

theorem lookup_setKey_ne (m : List (String × Bool)) (k u : String) (v : Bool)
    (h : u ≠ k) : List.lookup u (setKey m k v) = List.lookup u m := by
  induction m with
  | nil => simp [setKey, List.lookup_cons, beq_false_of_ne h]
  | cons p rest ih =>
    obtain ⟨k2, v2⟩ := p
    by_cases h2 : k2 = k
    · rw [h2]
      simp [setKey, List.lookup_cons, beq_false_of_ne h]
    · by_cases h3 : u = k2
      · rw [h3]; simp [setKey, h2, List.lookup_cons]
      · simp [setKey, h2, List.lookup_cons, beq_false_of_ne h3, ih]

theorem lookup_foldl_of_absent (rs : List Outcome) :
    ∀ (acc : List (String × Bool)) (u : String), (∀ o, o ∈ rs → o.url ≠ u) →
      List.lookup u (List.foldl (fun acc r => setKey acc r.url r.up) acc rs) =
        List.lookup u acc := by
  induction rs with
  | nil => intro acc u _; rfl
  | cons r rest ih =>
    intro acc u h
    have hne : u ≠ r.url := fun he => (h r (List.mem_cons_self r rest)) he.symm
    rw [List.foldl_cons, ih _ u (fun o ho => h o (List.mem_cons_of_mem r ho)),
      lookup_setKey_ne acc r.url u r.up hne]

theorem lookup_setKey_isSome (m : List (String × Bool)) (k u : String) (v : Bool)
    (h : (List.lookup u m).isSome = true) :
    (List.lookup u (setKey m k v)).isSome = true := by
  by_cases he : u = k
  · rw [he, lookup_setKey_self]; rfl
  · rw [lookup_setKey_ne _ _ _ _ he]; exact h

theorem lookup_foldl_isSome (rs : List Outcome) :
    ∀ (acc : List (String × Bool)) (u : String), (List.lookup u acc).isSome = true →
      (List.lookup u (List.foldl (fun acc r => setKey acc r.url r.up) acc rs)).isSome = true := by
  induction rs with
  | nil => intro acc u h; exact h
  | cons r rest ih =>
    intro acc u h
    rw [List.foldl_cons]
    exact ih _ u (lookup_setKey_isSome acc r.url u r.up h)

theorem lookup_buildState_mem (rs : List Outcome) :
    ∀ (acc : List (String × Bool)) (o : Outcome), o ∈ rs →
      (List.lookup o.url (List.foldl (fun acc r => setKey acc r.url r.up) acc rs)).isSome = true := by
  induction rs with
  | nil => intro acc o ho; cases ho
  | cons r rest ih =>
    intro acc o ho
    rw [List.foldl_cons]
    rcases List.mem_cons.mp ho with he | hm
    · rw [he]
      refine lookup_foldl_isSome rest _ r.url ?_
      rw [lookup_setKey_self]; rfl
    · exact ih _ o hm

theorem lookup_buildState_nodup (rs : List Outcome) :
    ∀ acc : List (String × Bool), (rs.map (fun r => r.url)).Nodup →
      ∀ o, o ∈ rs →
        List.lookup o.url (List.foldl (fun acc r => setKey acc r.url r.up) acc rs) =
          some o.up := by
  induction rs with
  | nil => intro acc _ o ho; cases ho
  | cons r rest ih =>
    intro acc hnd o ho
    have hnd2 := (List.nodup_cons.mp hnd).2
    have hnotin := (List.nodup_cons.mp hnd).1
    rw [List.foldl_cons]
    rcases List.mem_cons.mp ho with he | hm
    · rw [he]
      rw [lookup_foldl_of_absent rest _ r.url ?_, lookup_setKey_self]
      intro o2 ho2 he2
      exact hnotin (List.mem_map.mpr ⟨o2, ho2, he2⟩)
    · exact ih _ hnd2 o hm

end BuildStateProofs

section StateSavedProofs

theorem mainRun_savedState_mjs (results : List Outcome) (fs : FS) (force : Bool)
    (ts : String) (et : Nat) :
    (MonitorMjs.mainRun results fs force ts et).savedState = buildState results := by
  by_cases h : (MonitorMjs.hasChanges results (loadPreviousState fs) || force) = true <;>
    simp [MonitorMjs.mainRun, h]

theorem mainRun_savedState_part1 (results : List Outcome) (fs : FS) (force : Bool) :
    (Part1.mainRun results fs force).savedState = buildState results := by
  by_cases h1 : 0 < (Part1.detectChanges results (loadPreviousState fs)).length <;>
    by_cases h2 : force = true <;>
      simp [Part1.mainRun, h1, h2]

theorem mainRun_fsAfter_mjs (results : List Outcome) (fs : FS) (force : Bool)
    (ts : String) (et : Nat) :
    (MonitorMjs.mainRun results fs force ts et).fsAfter =
      (MonitorMjs.savePreviousState fs (buildState results)).1 := by
  by_cases h : (MonitorMjs.hasChanges results (loadPreviousState fs) || force) = true <;>
    simp [MonitorMjs.mainRun, h]

/-- C5: every run of main, in src/monitor.mjs and in src/unnamed/part_001
alike, passes savePreviousState exactly the mapping built from the
current results, whatever the prior file content and whatever the notify
decision turns out to be; that mapping is defined on exactly the current
outcome URLs (each mapped to its up value when URLs are distinct) so a
successful write replaces every previously persisted entry, including
entries for URLs no longer configured. -/
theorem state_saved_every_run (results : List Outcome) (fs : FS) (force : Bool)
    (ts : String) (et : Nat) :
    (MonitorMjs.mainRun results fs force ts et).savedState = buildState results ∧
    (Part1.mainRun results fs force).savedState = buildState results ∧
    (fs.parentExists = true → fs.diskFull = false →
      (MonitorMjs.mainRun results fs force ts et).fsAfter.file =
        some (stringifyState (buildState results))) ∧
    (∀ o, o ∈ results → (List.lookup o.url (buildState results)).isSome = true) ∧
    (∀ u, (∀ o, o ∈ results → o.url ≠ u) → List.lookup u (buildState results) = none) ∧
    ((results.map (fun r => r.url)).Nodup → ∀ o, o ∈ results →
      List.lookup o.url (buildState results) = some o.up) := by
  refine ⟨mainRun_savedState_mjs results fs force ts et,
    mainRun_savedState_part1 results fs force, ?_, ?_, ?_, ?_⟩
  · intro hp hd
    rw [mainRun_fsAfter_mjs results fs force ts et]
    simp [MonitorMjs.savePreviousState, writeFile, hp, hd]
  · intro o ho
    exact lookup_buildState_mem results [] o ho
  · intro u hu
    rw [buildState, lookup_foldl_of_absent results [] u hu]
    rfl
  · intro hnd o ho
    exact lookup_buildState_nodup results [] hnd o ho

/-- Concrete instantiation: with one up and one down outcome, both mains
save exactly that pair of URL-to-up entries, silently (no notify
dependence), and the file afterwards holds the serialized mapping. -/
theorem state_saved_every_run_example :
    (MonitorMjs.mainRun [exampleUp, exampleDown] fsEmpty false "t" 7).savedState =
      buildState [exampleUp, exampleDown] ∧
    (MonitorMjs.mainRun [exampleUp, exampleDown] fsEmpty false "t" 7).fsAfter.file =
      some (stringifyState (buildState [exampleUp, exampleDown])) ∧
    List.lookup "https://dev.example.com" (buildState [exampleUp, exampleDown]) =
      some false :=
  ⟨(state_saved_every_run [exampleUp, exampleDown] fsEmpty false "t" 7).1,
   (state_saved_every_run [exampleUp, exampleDown] fsEmpty false "t" 7).2.2.1 rfl rfl,
   (state_saved_every_run [exampleUp, exampleDown] fsEmpty false "t" 7).2.2.2.2.2
     (by decide) exampleDown (by simp)⟩

end StateSavedProofs

section NotifyDecisionProofs

theorem length_append_pos_left (s t : String) (h : 0 < s.length) :
    0 < (s ++ t).length := by
  rw [String.length_append]
  omega

theorem formatStatusMessage_pos (results : List Outcome) (ts : String) (et : Nat) :
    0 < (MonitorMjs.formatStatusMessage results ts et).length := by
  simp only [MonitorMjs.formatStatusMessage]
  repeat apply length_append_pos_left
  decide

theorem changeMessage_pos (c : Part1.Change) :
    0 < (Part1.changeMessage c).length := by
  obtain ⟨t, r⟩ := c
  cases t <;> (simp only [Part1.changeMessage]; apply length_append_pos_left; decide)

theorem joinSep_head_le (sep x : String) (l : List String) :
    x.length ≤ (joinSep sep (x :: l)).length := by
  cases l with
  | nil => simp [joinSep]
  | cons y rest =>
    simp [joinSep, String.length_append]
    omega

/-- C4 (amended): in part_001's main a delivery attempt is made exactly
when the detected transitions are non-empty or the force-report flag is
set; in src/monitor.mjs a delivery attempt is made exactly when
hasChanges is true or the flag is set, and hasChanges is also true for a
first-seen healthy target, so monitor.mjs can attempt a delivery with
zero transitions and no flag.  With the flag set both revisions build a
non-empty message and attempt a delivery even with zero transitions, the
full report in monitor.mjs and the current-status report in part_001. -/
theorem notify_decision (results : List Outcome) (fs : FS) (force : Bool)
    (ts : String) (et : Nat) :
    ((Part1.mainRun results fs force).notifyCalled = true ↔
      (Part1.detectChanges results (loadPreviousState fs) ≠ [] ∨ force = true)) ∧
    ((MonitorMjs.mainRun results fs force ts et).notifyCalled = true ↔
      (MonitorMjs.hasChanges results (loadPreviousState fs) = true ∨ force = true)) ∧
    (force = true →
      (MonitorMjs.mainRun results fs force ts et).notifyCalled = true ∧
      (MonitorMjs.mainRun results fs force ts et).message =
        some (MonitorMjs.formatStatusMessage results ts et) ∧
      0 < (MonitorMjs.formatStatusMessage results ts et).length) ∧
    (force = true →
      (Part1.mainRun results fs force).notifyCalled = true ∧
      ∃ s, (Part1.mainRun results fs force).message = some s ∧ 0 < s.length) ∧
    (force = true → Part1.detectChanges results (loadPreviousState fs) = [] →
      (Part1.mainRun results fs force).message =
        some (joinSep "\n" ("📊 **CURRENT STATUS REPORT**" :: "" :: results.map fmt))) := by
  refine ⟨?_, ?_, ?_, ?_, ?_⟩
  · cases hc : Part1.detectChanges results (loadPreviousState fs) with
    | nil => by_cases hf : force = true <;> simp [Part1.mainRun, hc, hf]
    | cons ch rest => simp [Part1.mainRun, hc]
  · by_cases hh : MonitorMjs.hasChanges results (loadPreviousState fs) = true <;>
      by_cases hf : force = true <;> simp [MonitorMjs.mainRun, hh, hf]
  · intro hf
    refine ⟨?_, ?_, formatStatusMessage_pos results ts et⟩ <;>
      simp [MonitorMjs.mainRun, hf]
  · intro hf
    cases hc : Part1.detectChanges results (loadPreviousState fs) with
    | nil =>
      refine ⟨by simp [Part1.mainRun, hc, hf], ?_⟩
      refine ⟨joinSep "\n" ("📊 **CURRENT STATUS REPORT**" :: "" :: results.map fmt),
        by simp [Part1.mainRun, hc, hf], ?_⟩
      have h1 : (0 : Nat) < ("📊 **CURRENT STATUS REPORT**" : String).length := by decide
      exact Nat.lt_of_lt_of_le h1 (joinSep_head_le _ _ _)
    | cons ch rest =>
      refine ⟨by simp [Part1.mainRun, hc], ?_⟩
      refine ⟨joinSep "\n\n" ((ch :: rest).map Part1.changeMessage),
        by simp [Part1.mainRun, hc], ?_⟩
      have h1 := changeMessage_pos ch
      have h2 := joinSep_head_le "\n\n" (Part1.changeMessage ch) (rest.map Part1.changeMessage)
      simp only [List.map_cons]
      omega
  · intro hf hc
    simp [Part1.mainRun, hc, hf]

/-- C4 counterexample to the claim as stated: on a first run with a
single healthy target, no force flag and empty prior state, monitor.mjs
attempts a delivery although the change detectors produce zero
transitions. -/
theorem mjs_notifies_with_zero_transitions :
    (MonitorMjs.mainRun [exampleUp] fsEmpty false "t" 5).notifyCalled = true ∧
    Part1.detectChanges [exampleUp] (loadPreviousState fsEmpty) = [] ∧
    Part2.getChangedServices [exampleUp] (loadPreviousState fsEmpty) = [] :=
  ⟨rfl, rfl, rfl⟩

/-- Concrete instantiation of the forced-report contract: with the flag
set and nothing changed, monitor.mjs still notifies with the full
report. -/
theorem notify_decision_example :
    (MonitorMjs.mainRun [exampleUp] fsEmpty true "t" 5).notifyCalled = true ∧
    (MonitorMjs.mainRun [exampleUp] fsEmpty true "t" 5).message =
      some (MonitorMjs.formatStatusMessage [exampleUp] "t" 5) :=
  ⟨((notify_decision [exampleUp] fsEmpty true "t" 5).2.2.1 rfl).1,
   ((notify_decision [exampleUp] fsEmpty true "t" 5).2.2.1 rfl).2.1⟩

end NotifyDecisionProofs

section ProberProofs

/-- C6 (amended): a completed response is classified up exactly when the
status check passes — equality with expectStatus when that is set and
nonzero (a zero value is falsy in JS, so the code then falls back to the
generic check), otherwise the successful-status class res.ok — and, when
a non-empty body substring is configured, a case-insensitive substring
match on the body also passes; the body is read exactly when a non-empty
substring is configured.  A completed probe records the status, the
measured latency, the slow flag and a null error; a transport error,
timeout or abort yields up=false, status 0, the caught message as error,
no latency, isSlow=false, and no body read. -/
theorem checkOnce_classification (t : Target) (res : Response) (e : String) (elapsed : Nat) :
    ((checkOnce t (Except.ok res) elapsed).1.up = true ↔
      ((∀ s, t.expectStatus = some s → s ≠ 0 → res.status = s) ∧
       ((t.expectStatus = none ∨ t.expectStatus = some 0) → res.ok = true) ∧
       (∀ b, t.expectText = some b → b ≠ "" → containsCI res.body b = true))) ∧
    ((checkOnce t (Except.ok res) elapsed).2 = true ↔
      ∃ b, t.expectText = some b ∧ b ≠ "") ∧
    (checkOnce t (Except.ok res) elapsed).1.status = res.status ∧
    (checkOnce t (Except.ok res) elapsed).1.ms = some elapsed ∧
    (checkOnce t (Except.ok res) elapsed).1.slow = decide (SLOW_THRESHOLD_MS < elapsed) ∧
    (checkOnce t (Except.ok res) elapsed).1.error = none ∧
    checkOnce t (Except.error e) elapsed =
      ({ name := t.name, url := t.url, up := false, status := 0, ms := none,
         slow := false, error := some e }, false) := by
  refine ⟨?_, ?_, rfl, rfl, rfl, rfl, rfl⟩
  · cases hes : t.expectStatus with
    | none =>
      cases het : t.expectText with
      | none => simp [checkOnce, hes, het]
      | some b => by_cases hb : b = "" <;> simp [checkOnce, hes, het, hb]
    | some s =>
      cases het : t.expectText with
      | none => by_cases hs : s = 0 <;> simp [checkOnce, hes, het, hs]
      | some b =>
        by_cases hs : s = 0 <;> by_cases hb : b = "" <;>
          simp [checkOnce, hes, het, hs, hb]
  · cases het : t.expectText with
    | none => simp [checkOnce, het]
    | some b => by_cases hb : b = "" <;> simp [checkOnce, het, hb]

/-- C6 counterexample to the claim as stated: with expectStatus set to 0
(a set value, but falsy in JS) and a completed status-250 response, the
code classifies the target up via the generic res.ok check, although
exact equality with the configured expected status fails. -/
theorem checkOnce_zero_expectStatus :
    (checkOnce
      { name := "Production", url := "https://example.com",
        expectStatus := some 0, expectText := none, timeoutMs := 8000 }
      (Except.ok { status := 250, body := "" }) 10).1.up = true ∧
    (250 : Nat) ≠ 0 :=
  ⟨rfl, by decide⟩

/-- Concrete instantiation of the classification contract: an exact
status match with no body expectation is up. -/
theorem checkOnce_classification_example :
    (checkOnce
      { name := "Production", url := "https://example.com",
        expectStatus := some 200, expectText := none, timeoutMs := 8000 }
      (Except.ok { status := 200, body := "" }) 10).1.up = true :=
  (checkOnce_classification
    { name := "Production", url := "https://example.com",
      expectStatus := some 200, expectText := none, timeoutMs := 8000 }
    { status := 200, body := "" } "" 10).1.mpr
    ⟨by simp, by simp, by simp⟩

end ProberProofs

section JsonRoundTrip

theorem skipWs_ws (c : Char) (l : List Char) (h : isWs c = true) :
    skipWs (c :: l) = skipWs l := by
  simp [skipWs, h]

theorem skipWs_not (c : Char) (l : List Char) (h : isWs c = false) :
    skipWs (c :: l) = c :: l := by
  simp [skipWs, h]

theorem hexVal_hexDigitChar : ∀ n, n < 16 → hexVal (hexDigitChar n) = some n := by decide

theorem hexVal_zero : hexVal '0' = some 0 := rfl

theorem unesc_quote (f : Nat) (l : List Char) :
    unescStringF (f + 1) ('"' :: l) = some ([], l) := rfl

theorem unesc_esc_quote (f : Nat) (l : List Char) :
    unescStringF (f + 1) ('\\' :: '"' :: l) =
      Option.map (fun p => ('"' :: p.1, p.2)) (unescStringF f l) := rfl

theorem unesc_esc_backslash (f : Nat) (l : List Char) :
    unescStringF (f + 1) ('\\' :: '\\' :: l) =
      Option.map (fun p => ('\\' :: p.1, p.2)) (unescStringF f l) := rfl

theorem unesc_esc_b (f : Nat) (l : List Char) :
    unescStringF (f + 1) ('\\' :: 'b' :: l) =
      Option.map (fun p => ('\x08' :: p.1, p.2)) (unescStringF f l) := rfl

theorem unesc_esc_f (f : Nat) (l : List Char) :
    unescStringF (f + 1) ('\\' :: 'f' :: l) =
      Option.map (fun p => ('\x0c' :: p.1, p.2)) (unescStringF f l) := rfl

theorem unesc_esc_n (f : Nat) (l : List Char) :
    unescStringF (f + 1) ('\\' :: 'n' :: l) =
      Option.map (fun p => ('\n' :: p.1, p.2)) (unescStringF f l) := rfl

theorem unesc_esc_r (f : Nat) (l : List Char) :
    unescStringF (f + 1) ('\\' :: 'r' :: l) =
      Option.map (fun p => ('\r' :: p.1, p.2)) (unescStringF f l) := rfl

theorem unesc_esc_t (f : Nat) (l : List Char) :
    unescStringF (f + 1) ('\\' :: 't' :: l) =
      Option.map (fun p => ('\t' :: p.1, p.2)) (unescStringF f l) := rfl

theorem unesc_plain (f : Nat) (c : Char) (l : List Char)
    (h1 : ¬c = '"') (h2 : ¬c = '\\') :
    unescStringF (f + 1) (c :: l) =
      Option.map (fun p => (c :: p.1, p.2)) (unescStringF f l) := by
  simp only [unescStringF]
  rw [if_neg h1, if_neg h2]

theorem unesc_u (f : Nat) (c : Char) (l : List Char) (h : c.toNat < 32) :
    unescStringF (f + 1)
      ('\\' :: 'u' :: '0' :: '0' :: hexDigitChar (c.toNat / 16) ::
        hexDigitChar (c.toNat % 16) :: l) =
      Option.map (fun p => (c :: p.1, p.2)) (unescStringF f l) := by
  have e1 : hexVal (hexDigitChar (c.toNat / 16)) = some (c.toNat / 16) :=
    hexVal_hexDigitChar _ (by omega)
  have e2 : hexVal (hexDigitChar (c.toNat % 16)) = some (c.toNat % 16) :=
    hexVal_hexDigitChar _ (by omega)
  have hn : ((0 * 16 + 0) * 16 + c.toNat / 16) * 16 + c.toNat % 16 = c.toNat := by omega
  have hv : Nat.isValidChar c.toNat := Or.inl (by omega)
  simp only [unescStringF, e1, e2, hexVal_zero, reduceIte, hn]
  rw [dif_pos hv, Char.ofNat_toNat]
  rw [if_neg (by decide)]

theorem escChar_length_pos (c : Char) : 0 < (escChar c).length := by
  unfold escChar
  split_ifs <;> simp

theorem le_length_escChars : ∀ cs : List Char, cs.length ≤ (escChars cs).length := by
  intro cs
  induction cs with
  | nil => simp [escChars]
  | cons c rest ih =>
    have := escChar_length_pos c
    simp only [escChars, List.length_append, List.length_cons]
    omega

theorem unescF_escChars (cs : List Char) : ∀ (fuel : Nat) (l : List Char),
    cs.length < fuel → unescStringF fuel (escChars cs ++ '"' :: l) = some (cs, l) := by
  induction cs with
  | nil =>
    intro fuel l h
    cases fuel with
    | zero => omega
    | succ f => simpa [escChars] using unesc_quote f l
  | cons c cs ih =>
    intro fuel l h
    cases fuel with
    | zero => omega
    | succ f =>
      have hf : cs.length < f := by
        simp only [List.length_cons] at h
        omega
      have step : escChars (c :: cs) ++ '"' :: l = escChar c ++ (escChars cs ++ '"' :: l) := by
        simp [escChars, List.append_assoc]
      rw [step]
      by_cases h1 : c = '"'
      · subst h1
        rw [show escChar '"' = ['\\', '"'] from rfl]
        simp only [List.cons_append, List.nil_append]
        rw [unesc_esc_quote f _, ih f l hf]
        rfl
      · by_cases h2 : c = '\\'
        · subst h2
          rw [show escChar '\\' = ['\\', '\\'] from rfl]
          simp only [List.cons_append, List.nil_append]
          rw [unesc_esc_backslash f _, ih f l hf]
          rfl
        · by_cases h3 : c = '\x08'
          · subst h3
            rw [show escChar '\x08' = ['\\', 'b'] from rfl]
            simp only [List.cons_append, List.nil_append]
            rw [unesc_esc_b f _, ih f l hf]
            rfl
          · by_cases h4 : c = '\x0c'
            · subst h4
              rw [show escChar '\x0c' = ['\\', 'f'] from rfl]
              simp only [List.cons_append, List.nil_append]
              rw [unesc_esc_f f _, ih f l hf]
              rfl
            · by_cases h5 : c = '\n'
              · subst h5
                rw [show escChar '\n' = ['\\', 'n'] from rfl]
                simp only [List.cons_append, List.nil_append]
                rw [unesc_esc_n f _, ih f l hf]
                rfl
              · by_cases h6 : c = '\r'
                · subst h6
                  rw [show escChar '\r' = ['\\', 'r'] from rfl]
                  simp only [List.cons_append, List.nil_append]
                  rw [unesc_esc_r f _, ih f l hf]
                  rfl
                · by_cases h7 : c = '\t'
                  · subst h7
                    rw [show escChar '\t' = ['\\', 't'] from rfl]
                    simp only [List.cons_append, List.nil_append]
                    rw [unesc_esc_t f _, ih f l hf]
                    rfl
                  · by_cases hctrl : c.toNat < 32
                    · have he : escChar c =
                          ['\\', 'u', '0', '0', hexDigitChar (c.toNat / 16),
                            hexDigitChar (c.toNat % 16)] := by
                        rw [escChar, if_neg h1, if_neg h2, if_neg h3, if_neg h4,
                          if_neg h5, if_neg h6, if_neg h7, if_pos hctrl]
                      rw [he]
                      simp only [List.cons_append, List.nil_append]
                      rw [unesc_u f c _ hctrl, ih f l hf]
                      rfl
                    · have he : escChar c = [c] := by
                        rw [escChar, if_neg h1, if_neg h2, if_neg h3, if_neg h4,
                          if_neg h5, if_neg h6, if_neg h7, if_neg hctrl]
                      rw [he]
                      simp only [List.cons_append, List.nil_append]
                      rw [unesc_plain f c _ h1 h2, ih f l hf]
                      rfl

theorem unescString_escChars (cs : List Char) (l : List Char) :
    unescString (escChars cs ++ '"' :: l) = some (cs, l) := by
  apply unescF_escChars
  have h1 := le_length_escChars cs
  simp only [List.length_append, List.length_cons]
  omega

theorem parseBoolLit_true (l : List Char) :
    parseBoolLit ('t' :: 'r' :: 'u' :: 'e' :: l) = some (true, l) := rfl

theorem parseBoolLit_false (l : List Char) :
    parseBoolLit ('f' :: 'a' :: 'l' :: 's' :: 'e' :: l) = some (false, l) := rfl

theorem parseEntriesF_entry (f : Nat) (k : String) (v : Bool) (T : List Char) :
    parseEntriesF (f + 1) (stringifyEntry k v ++ T) =
      (match skipWs T with
       | [] => none
       | c3 :: r5 =>
         if c3 = ',' then
           Option.map (fun p => ((k, v) :: p.1, p.2)) (parseEntriesF f r5)
         else if c3 = '}' then some ([(k, v)], r5)
         else none) := by
  cases v with
  | true =>
    have hassoc : stringifyEntry k true ++ T =
        ' ' :: ' ' :: '"' :: (escChars k.data ++ '"' :: ':' :: ' ' ::
          ('t' :: 'r' :: 'u' :: 'e' :: T)) := by
      simp [stringifyEntry]
    rw [hassoc]
    have h1 : skipWs (' ' :: ' ' :: '"' :: (escChars k.data ++ '"' :: ':' :: ' ' ::
        ('t' :: 'r' :: 'u' :: 'e' :: T))) =
        '"' :: (escChars k.data ++ '"' :: ':' :: ' ' :: ('t' :: 'r' :: 'u' :: 'e' :: T)) := by
      rw [skipWs_ws ' ' _ rfl, skipWs_ws ' ' _ rfl, skipWs_not '"' _ rfl]
    have h2 : skipWs (':' :: ' ' :: ('t' :: 'r' :: 'u' :: 'e' :: T)) =
        ':' :: ' ' :: ('t' :: 'r' :: 'u' :: 'e' :: T) := skipWs_not ':' _ rfl
    have h3 : skipWs (' ' :: ('t' :: 'r' :: 'u' :: 'e' :: T)) =
        't' :: 'r' :: 'u' :: 'e' :: T := by
      rw [skipWs_ws ' ' _ rfl, skipWs_not 't' _ rfl]
    simp only [parseEntriesF, h1, reduceIte,
      unescString_escChars k.data (':' :: ' ' :: ('t' :: 'r' :: 'u' :: 'e' :: T)),
      h2, h3, parseBoolLit_true]
  | false =>
    have hassoc : stringifyEntry k false ++ T =
        ' ' :: ' ' :: '"' :: (escChars k.data ++ '"' :: ':' :: ' ' ::
          ('f' :: 'a' :: 'l' :: 's' :: 'e' :: T)) := by
      simp [stringifyEntry]
    rw [hassoc]
    have h1 : skipWs (' ' :: ' ' :: '"' :: (escChars k.data ++ '"' :: ':' :: ' ' ::
        ('f' :: 'a' :: 'l' :: 's' :: 'e' :: T))) =
        '"' :: (escChars k.data ++ '"' :: ':' :: ' ' ::
          ('f' :: 'a' :: 'l' :: 's' :: 'e' :: T)) := by
      rw [skipWs_ws ' ' _ rfl, skipWs_ws ' ' _ rfl, skipWs_not '"' _ rfl]
    have h2 : skipWs (':' :: ' ' :: ('f' :: 'a' :: 'l' :: 's' :: 'e' :: T)) =
        ':' :: ' ' :: ('f' :: 'a' :: 'l' :: 's' :: 'e' :: T) := skipWs_not ':' _ rfl
    have h3 : skipWs (' ' :: ('f' :: 'a' :: 'l' :: 's' :: 'e' :: T)) =
        'f' :: 'a' :: 'l' :: 's' :: 'e' :: T := by
      rw [skipWs_ws ' ' _ rfl, skipWs_not 'f' _ rfl]
    simp only [parseEntriesF, h1, reduceIte,
      unescString_escChars k.data (':' :: ' ' :: ('f' :: 'a' :: 'l' :: 's' :: 'e' :: T)),
      h2, h3, parseBoolLit_false]

theorem parseEntriesF_congr (fuel : Nat) (l1 l2 : List Char) (h : skipWs l1 = skipWs l2) :
    parseEntriesF fuel l1 = parseEntriesF fuel l2 := by
  cases fuel with
  | zero => rfl
  | succ f => simp only [parseEntriesF, h]

theorem parseEntriesF_entriesChars :
    ∀ (m : List (String × Bool)) (fuel : Nat) (rest : List Char), m ≠ [] →
      m.length ≤ fuel →
      parseEntriesF fuel (entriesChars m ++ '\n' :: '}' :: rest) = some (m, rest) := by
  intro m
  induction m with
  | nil => intro fuel rest h _; exact absurd rfl h
  | cons p m' ih =>
    obtain ⟨k, v⟩ := p
    intro fuel rest _ hlen
    cases fuel with
    | zero => simp at hlen
    | succ f =>
      cases m' with
      | nil =>
        have he : entriesChars [(k, v)] = stringifyEntry k v := rfl
        rw [he, parseEntriesF_entry f k v ('\n' :: '}' :: rest)]
        rw [skipWs_ws '\n' _ rfl, skipWs_not '}' _ rfl]
        simp
      | cons p2 m'' =>
        have he : entriesChars ((k, v) :: p2 :: m'') ++ '\n' :: '}' :: rest =
            stringifyEntry k v ++ (',' :: '\n' :: (entriesChars (p2 :: m'') ++
              '\n' :: '}' :: rest)) := by
          simp [entriesChars, List.append_assoc]
        rw [he, parseEntriesF_entry f k v _]
        rw [skipWs_not ',' _ rfl]
        have hcongr : parseEntriesF f ('\n' :: (entriesChars (p2 :: m'') ++
            '\n' :: '}' :: rest)) =
            parseEntriesF f (entriesChars (p2 :: m'') ++ '\n' :: '}' :: rest) :=
          parseEntriesF_congr f _ _ (skipWs_ws '\n' _ rfl)
        have hih : parseEntriesF f (entriesChars (p2 :: m'') ++ '\n' :: '}' :: rest) =
            some (p2 :: m'', rest) := by
          apply ih f rest (by simp)
          simp only [List.length_cons] at hlen ⊢
          omega
        simp [hcongr, hih]

theorem stringifyEntry_len (k : String) (v : Bool) : 3 ≤ (stringifyEntry k v).length := by
  cases v <;> simp [stringifyEntry]

theorem length_le_entriesChars :
    ∀ mm : List (String × Bool), mm.length ≤ (entriesChars mm).length := by
  intro mm
  induction mm with
  | nil => simp [entriesChars]
  | cons q mm' ih =>
    obtain ⟨k, v⟩ := q
    cases mm' with
    | nil =>
      have h1 := stringifyEntry_len k v
      simp only [entriesChars, List.length_cons, List.length_nil]
      omega
    | cons q2 mm'' =>
      have h1 := stringifyEntry_len k v
      simp only [entriesChars, List.length_append, List.length_cons] at ih ⊢
      omega

theorem skipWs_entriesChars_head (mm : List (String × Bool)) (hne : mm ≠ [])
    (T : List Char) : ∃ Z, skipWs (entriesChars mm ++ T) = '"' :: Z := by
  obtain ⟨q, mm', rfl⟩ : ∃ q mm', mm = q :: mm' := by
    cases mm with
    | nil => exact absurd rfl hne
    | cons q mm' => exact ⟨q, mm', rfl⟩
  obtain ⟨k, v⟩ := q
  have hshape : ∃ W, entriesChars ((k, v) :: mm') ++ T = ' ' :: ' ' :: '"' :: W := by
    cases mm' <;> cases v <;>
      simp [entriesChars, stringifyEntry, List.append_assoc]
  obtain ⟨W, hW⟩ := hshape
  rw [hW, skipWs_ws ' ' _ rfl, skipWs_ws ' ' _ rfl, skipWs_not '"' _ rfl]
  exact ⟨W, rfl⟩

theorem parseState_cons (s : String) (r : List Char) (hd : s.data = '{' :: r)
    (hz : ∃ Z, skipWs r = '"' :: Z) (m : List (String × Bool))
    (hp : parseEntriesF (r.length + 2) r = some (m, [])) :
    parseState s = some m := by
  obtain ⟨Z, hzz⟩ := hz
  rw [parseState, hd]
  rw [skipWs_not '{' _ rfl]
  simp only [hzz, reduceIte, List.length_cons, hp]
  rfl

theorem parseState_stringifyState (m : List (String × Bool)) :
    parseState (stringifyState m) = some m := by
  cases m with
  | nil => rfl
  | cons p m' =>
    apply parseState_cons (stringifyState (p :: m'))
      ('\n' :: (entriesChars (p :: m') ++ '\n' :: ['}']))
    · rw [stringifyState]
      rfl
    · rw [skipWs_ws '\n' _ rfl]
      exact skipWs_entriesChars_head (p :: m') (by simp) ('\n' :: ['}'])
    · have hc : parseEntriesF
          (('\n' :: (entriesChars (p :: m') ++ '\n' :: ['}'])).length + 2)
          ('\n' :: (entriesChars (p :: m') ++ '\n' :: ['}'])) =
          parseEntriesF
            (('\n' :: (entriesChars (p :: m') ++ '\n' :: ['}'])).length + 2)
            (entriesChars (p :: m') ++ '\n' :: '}' :: []) :=
        parseEntriesF_congr _ _ _ (skipWs_ws '\n' _ rfl)
      rw [hc]
      apply parseEntriesF_entriesChars (p :: m') _ [] (by simp)
      have h1 := length_le_entriesChars (p :: m')
      simp only [List.length_cons, List.length_append, List.length_nil] at h1 ⊢
      omega

/-- C8: saving any state mapping and then loading it back, with the
write succeeding and no external interference, returns exactly the
mapping that was saved (JSON round trip through the state file). -/
theorem save_load_round_trip (fs : FS) (state : List (String × Bool))
    (h1 : fs.parentExists = true) (h2 : fs.diskFull = false) :
    loadPreviousState (MonitorMjs.savePreviousState fs state).1 = state ∧
    loadPreviousState (Part2.savePreviousState fs state).1 = state := by
  constructor
  · simp [MonitorMjs.savePreviousState, writeFile, h1, h2, loadPreviousState,
      readFile, parseState_stringifyState]
  · simp [Part2.savePreviousState, mkdirRecursive, writeFile, h2,
      loadPreviousState, readFile, parseState_stringifyState]

/-- Concrete instantiation of the round trip on a two-entry mapping. -/
theorem save_load_round_trip_example :
    loadPreviousState
      (MonitorMjs.savePreviousState fsEmpty
        [("https://example.com", true), ("https://dev.example.com", false)]).1 =
      [("https://example.com", true), ("https://dev.example.com", false)] :=
  (save_load_round_trip fsEmpty
    [("https://example.com", true), ("https://dev.example.com", false)] rfl rfl).1

/-- C7 (amended): loadPreviousState is total (never raises) and returns
the empty mapping when the state file is missing or unparseable;
part_002's savePreviousState creates the missing parent directory before
writing, while monitor.mjs's savePreviousState writes directly and
creates nothing; in both, a write failure is caught, leaves the prior
on-disk content in place, produces a console warning, and the run
continues (the functions return normally). -/
theorem store_error_handling (fs : FS) (s : String) (state : List (String × Bool)) :
    (fs.file = none → loadPreviousState fs = []) ∧
    (parseState s = none →
      loadPreviousState (FS.mk fs.parentExists fs.diskFull (some s)) = []) ∧
    (Part2.savePreviousState fs state).1.parentExists = true ∧
    (fs.diskFull = false →
      (Part2.savePreviousState fs state).1.file = some (stringifyState state)) ∧
    (fs.diskFull = true → (Part2.savePreviousState fs state).1.file = fs.file ∧
      ((Part2.savePreviousState fs state).2).isSome = true) ∧
    (fs.parentExists = false →
      (MonitorMjs.savePreviousState fs state).1 = fs ∧
      ((MonitorMjs.savePreviousState fs state).2).isSome = true) ∧
    (fs.diskFull = true → (MonitorMjs.savePreviousState fs state).1.file = fs.file ∧
      ((MonitorMjs.savePreviousState fs state).2).isSome = true) := by
  refine ⟨?_, ?_, ?_, ?_, ?_, ?_, ?_⟩
  · intro h
    exact loadPreviousState_of_missing fs h
  · intro h
    simp [loadPreviousState, readFile, h]
  · simp [Part2.savePreviousState, mkdirRecursive, writeFile]
    by_cases hd : fs.diskFull <;> simp [hd]
  · intro hd
    simp [Part2.savePreviousState, mkdirRecursive, writeFile, hd]
  · intro hd
    simp [Part2.savePreviousState, mkdirRecursive, writeFile, hd]
  · intro hp
    simp [MonitorMjs.savePreviousState, writeFile, hp]
  · intro hd
    by_cases hp : fs.parentExists <;>
      simp [MonitorMjs.savePreviousState, writeFile, hp, hd]

/-- C7 counterexample to the claim as stated: with the parent directory
of the state file missing, monitor.mjs's savePreviousState does not
create it — the write fails, nothing is created, and only a warning is
produced — whereas part_002's savePreviousState does create it and
writes the file. -/
theorem save_without_mkdir :
    (MonitorMjs.savePreviousState fsNoDir [("https://example.com", true)]).1.parentExists
        = false ∧
    (MonitorMjs.savePreviousState fsNoDir [("https://example.com", true)]).1.file = none ∧
    ((MonitorMjs.savePreviousState fsNoDir [("https://example.com", true)]).2).isSome
        = true ∧
    (Part2.savePreviousState fsNoDir [("https://example.com", true)]).1.parentExists
        = true ∧
    (Part2.savePreviousState fsNoDir [("https://example.com", true)]).1.file =
      some (stringifyState [("https://example.com", true)]) :=
  ⟨rfl, rfl, rfl, rfl, rfl⟩

/-- Concrete instantiation of the store contract: a missing file loads
as the empty mapping and a disk-full write leaves the file untouched. -/
theorem store_error_handling_example :
    loadPreviousState fsEmpty = [] ∧
    (MonitorMjs.savePreviousState { parentExists := true, diskFull := true, file := none }
      [("https://example.com", true)]).1.file = none :=
  ⟨(store_error_handling fsEmpty "" []).1 rfl,
   ((store_error_handling { parentExists := true, diskFull := true, file := none } ""
      [("https://example.com", true)]).2.2.2.2.2.2 rfl).1⟩

end JsonRoundTrip
